import Mathlib

set_option maxHeartbeats 1000000
set_option maxRecDepth 100000

/-!
Shallow embedding of `src/todo_app.py`, a single-user TODO application
backed by a flat JSON file.

The file content is modelled by `FileContent`: either text that
`json.loads` rejects (`malformed`) or text whose parse result is a given
`Json` value.  Wall-clock time (`datetime.now().isoformat()`) is passed in
as an explicit `now : String` argument.  Every operation of the `TodoApp`
class becomes a pure function from a `FileContent` to a result paired with
the `FileContent` after the call; an operation that raises before reaching
`_save` returns the input content unchanged, exactly as the Python code
leaves the file untouched on those paths.
-/

/-- JSON values as produced by `json.loads`.  The repository only ever
stores strings, booleans, integers and `null`, so floating-point numbers
are left out of the model. -/
inductive Json where
  | null : Json
  | bool (b : Bool) : Json
  | int (n : Int) : Json
  | str (s : String) : Json
  | arr (elems : List Json) : Json
  | obj (fields : List (String × Json)) : Json

namespace TodoApp

/-- The `Task` dataclass of `todo_app.py` (lines 10-21).  Field values are
modelled at the declared field types of the dataclass, which are also the
types of the persisted file format. -/
structure Task where
  title : String
  done : Bool
  priority : Int
  created_at : String
  completed_at : Option String
deriving DecidableEq, Repr

/-- The exceptions the application raises: `ValueError` (the validation
error), `TypeError` (raised by `Task(**item)` on a non-mapping argument or
an unexpected or missing keyword), and `TaskNotFoundError`. -/
inductive AppError where
  | valueError (msg : String) : AppError
  | typeError (msg : String) : AppError
  | taskNotFound (msg : String) : AppError
deriving DecidableEq, Repr

/-- The membership test `priority in (1, 2, 3)` from `Task.__post_init__`
(line 20). -/
def priorityValid (p : Int) : Bool := p == 1 || p == 2 || p == 3

/-- The keyword parameters accepted by the `Task` dataclass constructor. -/
def fieldNames : List String := ["title", "done", "priority", "created_at", "completed_at"]

/-- Lookup of a key in a decoded JSON object.  `json.loads` builds a dict,
keeping the last value bound to a duplicated key, hence the `reverse`. -/
def lookupLast (kvs : List (String × Json)) (k : String) : Option Json :=
  List.lookup k kvs.reverse

/-- The `title` keyword of `Task(**item)`: required (no default). -/
def decodeTitle (kvs : List (String × Json)) : Except AppError String :=
  match lookupLast kvs "title" with
  | none => .error (.typeError "missing required argument title")
  | some (.str s) => .ok s
  | some _ => .error (.typeError "off-schema title value")

/-- The `done` keyword of `Task(**item)`: defaults to `False`. -/
def decodeDone (kvs : List (String × Json)) : Except AppError Bool :=
  match lookupLast kvs "done" with
  | none => .ok false
  | some (.bool b) => .ok b
  | some _ => .error (.typeError "off-schema done value")

/-- The `priority` keyword of `Task(**item)`: defaults to `1`.  The range
check itself lives in `postInit`.  A JSON boolean is an `int` instance in
Python: `True` equals `1` and is accepted, `False` equals `0` and fails the
`__post_init__` membership test; any other non-integer value fails the
`isinstance` check there, raising the same `ValueError`. -/
def decodePriority (kvs : List (String × Json)) : Except AppError Int :=
  match lookupLast kvs "priority" with
  | none => .ok 1
  | some (.int n) => .ok n
  | some (.bool true) => .ok 1
  | some (.bool false) => .error (.valueError "Priority must be 1, 2, or 3")
  | some _ => .error (.valueError "Priority must be 1, 2, or 3")

/-- The `created_at` keyword of `Task(**item)`: defaults to the current
time (`default_factory`), hence the `now` argument. -/
def decodeCreated (now : String) (kvs : List (String × Json)) : Except AppError String :=
  match lookupLast kvs "created_at" with
  | none => .ok now
  | some (.str s) => .ok s
  | some _ => .error (.typeError "off-schema created_at value")

/-- The `completed_at` keyword of `Task(**item)`: defaults to `None`. -/
def decodeCompleted (kvs : List (String × Json)) : Except AppError (Option String) :=
  match lookupLast kvs "completed_at" with
  | none => .ok none
  | some .null => .ok none
  | some (.str s) => .ok (some s)
  | some _ => .error (.typeError "off-schema completed_at value")

/-- Construction of a `Task` value, running `Task.__post_init__`
(lines 19-21): raises `ValueError` unless the priority is 1, 2 or 3. -/
def postInit (title : String) (done : Bool) (priority : Int) (created_at : String)
    (completed_at : Option String) : Except AppError Task :=
  if priorityValid priority then .ok ⟨title, done, priority, created_at, completed_at⟩
  else .error (.valueError "Priority must be 1, 2, or 3")

/-- Evaluation of `Task(**item)` for one entry of the parsed JSON data:
a non-mapping item raises `TypeError`, as does an unexpected or a missing
required keyword; `__post_init__` then validates the priority. -/
def decodeItem (now : String) (x : Json) : Except AppError Task :=
  match x with
  | .obj kvs =>
    if kvs.all (fun kv => fieldNames.contains kv.1) then
      match decodeTitle kvs with
      | .error e => .error e
      | .ok title =>
        match decodeDone kvs with
        | .error e => .error e
        | .ok done =>
          match decodePriority kvs with
          | .error e => .error e
          | .ok priority =>
            match decodeCreated now kvs with
            | .error e => .error e
            | .ok created =>
              match decodeCompleted kvs with
              | .error e => .error e
              | .ok completed => postInit title done priority created completed
    else .error (.typeError "unexpected keyword argument")
  | _ => .error (.typeError "argument after double-star must be a mapping")

/-- The comprehension `[Task(**item) for item in data]` (line 46).
Iterating a non-sequence raises `TypeError`; iterating a string yields its
characters and a dict yields its keys, and `Task(**c)` on a character or a
string key raises `TypeError` — so those succeed exactly when empty,
producing an empty list of tasks. -/
def decodeTasks (now : String) (v : Json) : Except AppError (List Task) :=
  match v with
  | .arr xs => xs.mapM (decodeItem now)
  | .str s => if s = "" then .ok [] else .error (.typeError "argument after double-star must be a mapping")
  | .obj [] => .ok []
  | .obj (_ :: _) => .error (.typeError "argument after double-star must be a mapping")
  | _ => .error (.typeError "object is not iterable")

/-- The storage file's content: either text rejected by `json.loads`
(raising `json.JSONDecodeError`) or text parsing to a `Json` value. -/
inductive FileContent where
  | malformed (raw : String) : FileContent
  | json (v : Json) : FileContent

/-- The method `TodoApp._load` (lines 42-48): parse the file and build the
tasks; only `json.JSONDecodeError` is caught and turned into `[]`, every
error raised by `Task(**item)` propagates. -/
def load (now : String) (fc : FileContent) : Except AppError (List Task) :=
  match fc with
  | .malformed _ => .ok []
  | .json v => decodeTasks now v

/-- Serialization `asdict(t)` of one task, as written by `json.dumps`. -/
def Task.toJson (t : Task) : Json :=
  .obj [("title", .str t.title), ("done", .bool t.done), ("priority", .int t.priority),
        ("created_at", .str t.created_at),
        ("completed_at", match t.completed_at with | none => .null | some s => .str s)]

/-- The method `TodoApp._save` (lines 50-54): overwrite the file with the
JSON array of the serialized tasks (indentation is cosmetic and not part of
the model). -/
def save (tasks : List Task) : FileContent :=
  .json (.arr (tasks.map Task.toJson))

/-- The whitespace test of CPython `str.strip()` / `str.isspace()`: the
ASCII controls 09-0D and 1C-1F, the space, NEL (0085), NBSP (00A0), Ogham
space mark (1680), the range 2000-200A, line and paragraph separators
(2028, 2029), narrow no-break space (202F), medium mathematical space
(205F) and ideographic space (3000). -/
def pyIsSpace (c : Char) : Bool :=
  c.toNat == 0x09 || c.toNat == 0x0A || c.toNat == 0x0B || c.toNat == 0x0C ||
  c.toNat == 0x0D || c.toNat == 0x1C || c.toNat == 0x1D || c.toNat == 0x1E ||
  c.toNat == 0x1F || c.toNat == 0x20 || c.toNat == 0x85 || c.toNat == 0xA0 ||
  c.toNat == 0x1680 || (decide (0x2000 ≤ c.toNat) && decide (c.toNat ≤ 0x200A)) ||
  c.toNat == 0x2028 || c.toNat == 0x2029 || c.toNat == 0x202F ||
  c.toNat == 0x205F || c.toNat == 0x3000

/-- The method `TodoApp.add_task` (lines 56-69): validate the title, load,
construct the task (validating the priority), append, save.  The check
`not title.strip()` holds exactly when every character of the (nonempty)
title is whitespace in the `str.strip()` sense, which is how it is
rendered here. -/
def add_task (now title : String) (priority : Int) (fc : FileContent) :
    Except AppError Task × FileContent :=
  if title = "" then (.error (.valueError "Task title cannot be empty"), fc)
  else if title.data.all pyIsSpace then (.error (.valueError "Task title cannot be only whitespace"), fc)
  else if 200 < title.length then (.error (.valueError "Task title cannot exceed 200 characters"), fc)
  else
    match load now fc with
    | .error e => (.error e, fc)
    | .ok tasks =>
      match postInit title false priority now none with
      | .error e => (.error e, fc)
      | .ok task => (.ok task, save (tasks ++ [task]))

/-- The loop of `TodoApp.complete_task` (lines 75-84): first task whose
title matches is completed in place; an already-done match raises
`ValueError`; no match raises `TaskNotFoundError`. -/
def completeScan (now title : String) : List Task → Except AppError (Task × List Task)
  | [] => .error (.taskNotFound ("Task " ++ title ++ " not found"))
  | t :: ts =>
    if t.title = title then
      if t.done then .error (.valueError "Task is already completed")
      else
        .ok ({ t with done := true, completed_at := some now },
             { t with done := true, completed_at := some now } :: ts)
    else
      match completeScan now title ts with
      | .error e => .error e
      | .ok (r, ts2) => .ok (r, t :: ts2)

/-- The method `TodoApp.complete_task` (lines 71-84). -/
def complete_task (now title : String) (fc : FileContent) :
    Except AppError Task × FileContent :=
  match load now fc with
  | .error e => (.error e, fc)
  | .ok tasks =>
    match completeScan now title tasks with
    | .error e => (.error e, fc)
    | .ok (t, tasks2) => (.ok t, save tasks2)

/-- The loop of `TodoApp.delete_task` (lines 90-96): pop the first task
whose title matches; no match raises `TaskNotFoundError`. -/
def deleteScan (title : String) : List Task → Except AppError (Task × List Task)
  | [] => .error (.taskNotFound ("Task " ++ title ++ " not found"))
  | t :: ts =>
    if t.title = title then .ok (t, ts)
    else
      match deleteScan title ts with
      | .error e => .error e
      | .ok (r, ts2) => .ok (r, t :: ts2)

/-- The method `TodoApp.delete_task` (lines 86-96). -/
def delete_task (now title : String) (fc : FileContent) :
    Except AppError Task × FileContent :=
  match load now fc with
  | .error e => (.error e, fc)
  | .ok tasks =>
    match deleteScan title tasks with
    | .error e => (.error e, fc)
    | .ok (t, tasks2) => (.ok t, save tasks2)

/-- The loop of `TodoApp.get_task` (lines 102-106). -/
def getScan (title : String) : List Task → Except AppError Task
  | [] => .error (.taskNotFound ("Task " ++ title ++ " not found"))
  | t :: ts => if t.title = title then .ok t else getScan title ts

/-- The method `TodoApp.get_task` (lines 98-106): read-only, never saves. -/
def get_task (now title : String) (fc : FileContent) :
    Except AppError Task × FileContent :=
  match load now fc with
  | .error e => (.error e, fc)
  | .ok tasks => (getScan title tasks, fc)

/-- The method `TodoApp.get_all_tasks` (lines 108-110). -/
def get_all_tasks (now : String) (fc : FileContent) :
    Except AppError (List Task) × FileContent :=
  (load now fc, fc)

/-- The method `TodoApp.active_tasks_count` (lines 112-114). -/
def active_tasks_count (now : String) (fc : FileContent) :
    Except AppError Nat × FileContent :=
  match load now fc with
  | .error e => (.error e, fc)
  | .ok tasks => (.ok (tasks.countP (fun t => !t.done)), fc)

/-- The method `TodoApp.completed_tasks_count` (lines 116-118). -/
def completed_tasks_count (now : String) (fc : FileContent) :
    Except AppError Nat × FileContent :=
  match load now fc with
  | .error e => (.error e, fc)
  | .ok tasks => (.ok (tasks.countP (fun t => t.done)), fc)

/-- The method `TodoApp.get_tasks_by_priority` (lines 120-124): the
priority is validated before the load. -/
def get_tasks_by_priority (now : String) (priority : Int) (fc : FileContent) :
    Except AppError (List Task) × FileContent :=
  if priorityValid priority then
    match load now fc with
    | .error e => (.error e, fc)
    | .ok tasks => (.ok (tasks.filter (fun t => t.priority == priority)), fc)
  else (.error (.valueError "Priority must be 1, 2, or 3"), fc)

/-- The method `TodoApp.get_high_priority_tasks` (lines 126-128). -/
def get_high_priority_tasks (now : String) (fc : FileContent) :
    Except AppError (List Task) × FileContent :=
  get_tasks_by_priority now 3 fc

/-- Storage states reachable from the empty storage (`_ensure_storage`
writes the text of an empty JSON array) through the mutating public
operations.  An operation that raises returns the input state, so the
error paths are covered as well. -/
inductive Reachable : FileContent → Prop where
  | init : Reachable (save [])
  | add (now title : String) (p : Int) {fc : FileContent} :
      Reachable fc → Reachable (add_task now title p fc).2
  | complete (now title : String) {fc : FileContent} :
      Reachable fc → Reachable (complete_task now title fc).2
  | delete (now title : String) {fc : FileContent} :
      Reachable fc → Reachable (delete_task now title fc).2

/-! Basic computation lemmas. -/

theorem ok_bind {α β : Type} (a : α) (f : α → Except AppError β) :
    (Except.ok a >>= f : Except AppError β) = f a := rfl

theorem error_bind {α β : Type} (e : AppError) (f : α → Except AppError β) :
    (Except.error e >>= f : Except AppError β) = .error e := rfl

theorem pure_eq_ok {α : Type} (a : α) : (pure a : Except AppError α) = .ok a := rfl

theorem postInit_ok (title : String) (done : Bool) (p : Int) (c : String)
    (co : Option String) (h : priorityValid p = true) :
    postInit title done p c co = .ok ⟨title, done, p, c, co⟩ := by
  simp [postInit, h]

theorem postInit_priority {title : String} {done : Bool} {p : Int} {c : String}
    {co : Option String} {t : Task} (h : postInit title done p c co = .ok t) :
    priorityValid t.priority = true := by
  unfold postInit at h
  split at h
  · cases h
    assumption
  · exact Except.noConfusion h

/-- Round trip for one task: decoding the serialized form of a task with a
valid priority reconstructs the task. -/
theorem decodeItem_toJson (now : String) (t : Task)
    (h : priorityValid t.priority = true) :
    decodeItem now (Task.toJson t) = .ok t := by
  obtain ⟨title, done, p, c, co⟩ := t
  cases co with
  | none => exact postInit_ok _ _ _ _ _ h
  | some s => exact postInit_ok _ _ _ _ _ h

/-- Round trip for a whole collection of tasks with valid priorities. -/
theorem load_save (now : String) (l : List Task)
    (h : ∀ t ∈ l, priorityValid t.priority = true) :
    load now (save l) = .ok l := by
  induction l with
  | nil => rfl
  | cons t ts ih =>
    have ht := h t (List.mem_cons_self t ts)
    have iht : (ts.map Task.toJson).mapM (decodeItem now) = .ok ts :=
      ih (fun u hu => h u (List.mem_cons_of_mem t hu))
    show ((t :: ts).map Task.toJson).mapM (decodeItem now) = .ok (t :: ts)
    rw [List.map_cons, List.mapM_cons, decodeItem_toJson now t ht, ok_bind, iht,
      ok_bind, pure_eq_ok]

/-- Every task produced by a successful `mapM` decode comes from decoding
some entry. -/
theorem mapM_ok_inv {f : Json → Except AppError Task} :
    ∀ {xs : List Json} {l : List Task}, xs.mapM f = .ok l →
      ∀ t ∈ l, ∃ x, f x = .ok t := by
  intro xs
  induction xs with
  | nil =>
    intro l h t ht
    rw [List.mapM_nil] at h
    rw [pure_eq_ok] at h
    injection h with h2
    subst h2
    exact absurd ht (List.not_mem_nil t)
  | cons x xs ih =>
    intro l h t ht
    rw [List.mapM_cons] at h
    cases hfx : f x with
    | error e => rw [hfx, error_bind] at h; exact Except.noConfusion h
    | ok b =>
      rw [hfx, ok_bind] at h
      cases hxs : xs.mapM f with
      | error e => rw [hxs, error_bind] at h; exact Except.noConfusion h
      | ok bs =>
        rw [hxs, ok_bind, pure_eq_ok] at h
        injection h with h2
        subst h2
        cases ht with
        | head => exact ⟨x, hfx⟩
        | tail _ hmem => exact ih hxs t hmem

/-- A successfully decoded task has a valid priority: `__post_init__` ran. -/
theorem decodeItem_ok_priority {now : String} {x : Json} {t : Task}
    (h : decodeItem now x = .ok t) : priorityValid t.priority = true := by
  cases x with
  | obj kvs =>
    simp only [decodeItem] at h
    split at h
    · split at h
      · exact Except.noConfusion h
      · split at h
        · exact Except.noConfusion h
        · split at h
          · exact Except.noConfusion h
          · split at h
            · exact Except.noConfusion h
            · split at h
              · exact Except.noConfusion h
              · exact postInit_priority h
    · exact Except.noConfusion h
  | null => simp only [decodeItem] at h; exact Except.noConfusion h
  | bool b => simp only [decodeItem] at h; exact Except.noConfusion h
  | int n => simp only [decodeItem] at h; exact Except.noConfusion h
  | str s => simp only [decodeItem] at h; exact Except.noConfusion h
  | arr xs => simp only [decodeItem] at h; exact Except.noConfusion h

/-- Every task returned by `_load` has a valid priority. -/
theorem load_priorities {now : String} {fc : FileContent} {tasks : List Task}
    (h : load now fc = .ok tasks) : ∀ t ∈ tasks, priorityValid t.priority = true := by
  intro t ht
  cases fc with
  | malformed raw =>
    unfold load at h
    injection h with h2
    subst h2
    exact absurd ht (List.not_mem_nil t)
  | json v =>
    unfold load at h
    cases v with
    | arr xs =>
      simp only [decodeTasks] at h
      obtain ⟨x, hx⟩ := mapM_ok_inv h t ht
      exact decodeItem_ok_priority hx
    | str s =>
      simp only [decodeTasks] at h
      split at h
      · injection h with h2
        subst h2
        exact absurd ht (List.not_mem_nil t)
      · exact Except.noConfusion h
    | obj kvs =>
      cases kvs with
      | nil =>
        simp only [decodeTasks] at h
        injection h with h2
        subst h2
        exact absurd ht (List.not_mem_nil t)
      | cons kv kvs => simp only [decodeTasks] at h; exact Except.noConfusion h
    | null => simp only [decodeTasks] at h; exact Except.noConfusion h
    | bool b => simp only [decodeTasks] at h; exact Except.noConfusion h
    | int n => simp only [decodeTasks] at h; exact Except.noConfusion h

/-! Lemmas about the linear scans of `complete_task`, `delete_task` and
`get_task`. -/

theorem getScan_not_found {title : String} {l : List Task}
    (h : ∀ u ∈ l, u.title ≠ title) :
    getScan title l = .error (.taskNotFound ("Task " ++ title ++ " not found")) := by
  induction l with
  | nil => rfl
  | cons t ts ih =>
    have ht := h t (List.mem_cons_self t ts)
    simp only [getScan]
    rw [if_neg ht]
    exact ih (fun u hu => h u (List.mem_cons_of_mem t hu))

theorem getScan_found {title : String} {pre : List Task} {t : Task} {post : List Task}
    (hpre : ∀ u ∈ pre, u.title ≠ title) (ht : t.title = title) :
    getScan title (pre ++ t :: post) = .ok t := by
  induction pre with
  | nil =>
    simp only [List.nil_append, getScan]
    rw [if_pos ht]
  | cons u us ih =>
    have hu := hpre u (List.mem_cons_self u us)
    simp only [List.cons_append, getScan]
    rw [if_neg hu]
    exact ih (fun w hw => hpre w (List.mem_cons_of_mem u hw))

theorem completeScan_not_found {now title : String} {l : List Task}
    (h : ∀ u ∈ l, u.title ≠ title) :
    completeScan now title l =
      .error (.taskNotFound ("Task " ++ title ++ " not found")) := by
  induction l with
  | nil => rfl
  | cons t ts ih =>
    have ht := h t (List.mem_cons_self t ts)
    simp only [completeScan, List.append_eq]
    rw [if_neg ht, ih (fun u hu => h u (List.mem_cons_of_mem t hu))]

theorem completeScan_found_done {now title : String} {pre : List Task} {t : Task}
    {post : List Task} (hpre : ∀ u ∈ pre, u.title ≠ title) (ht : t.title = title)
    (hd : t.done = true) :
    completeScan now title (pre ++ t :: post) =
      .error (.valueError "Task is already completed") := by
  induction pre with
  | nil =>
    simp only [List.nil_append, completeScan]
    rw [if_pos ht, if_pos hd]
  | cons u us ih =>
    have hu := hpre u (List.mem_cons_self u us)
    simp only [List.cons_append, completeScan, List.append_eq]
    rw [if_neg hu, ih (fun w hw => hpre w (List.mem_cons_of_mem u hw))]

theorem completeScan_found_active {now title : String} {pre : List Task} {t : Task}
    {post : List Task} (hpre : ∀ u ∈ pre, u.title ≠ title) (ht : t.title = title)
    (hd : t.done = false) :
    completeScan now title (pre ++ t :: post) =
      .ok ({ t with done := true, completed_at := some now },
           pre ++ { t with done := true, completed_at := some now } :: post) := by
  induction pre with
  | nil =>
    simp only [List.nil_append, completeScan]
    rw [if_pos ht, if_neg (by rw [hd]; exact Bool.false_ne_true)]
  | cons u us ih =>
    have hu := hpre u (List.mem_cons_self u us)
    simp only [List.cons_append, completeScan, List.append_eq]
    rw [if_neg hu, ih (fun w hw => hpre w (List.mem_cons_of_mem u hw))]

theorem deleteScan_not_found {title : String} {l : List Task}
    (h : ∀ u ∈ l, u.title ≠ title) :
    deleteScan title l = .error (.taskNotFound ("Task " ++ title ++ " not found")) := by
  induction l with
  | nil => rfl
  | cons t ts ih =>
    have ht := h t (List.mem_cons_self t ts)
    simp only [deleteScan, List.append_eq]
    rw [if_neg ht, ih (fun u hu => h u (List.mem_cons_of_mem t hu))]

theorem deleteScan_found {title : String} {pre : List Task} {t : Task}
    {post : List Task} (hpre : ∀ u ∈ pre, u.title ≠ title) (ht : t.title = title) :
    deleteScan title (pre ++ t :: post) = .ok (t, pre ++ post) := by
  induction pre with
  | nil =>
    simp only [List.nil_append, deleteScan]
    rw [if_pos ht]
  | cons u us ih =>
    have hu := hpre u (List.mem_cons_self u us)
    simp only [List.cons_append, deleteScan, List.append_eq]
    rw [if_neg hu, ih (fun w hw => hpre w (List.mem_cons_of_mem u hw))]

/-- Decomposition of a successful `List.find?` into the prefix of
non-matching tasks, the first match, and the remainder. -/
theorem find?_decomp {l : List Task} {title : String} {t : Task}
    (h : l.find? (fun u => u.title == title) = some t) :
    ∃ pre post, l = pre ++ t :: post ∧ (∀ u ∈ pre, u.title ≠ title) ∧
      t.title = title := by
  induction l with
  | nil => exact Option.noConfusion h
  | cons a as ih =>
    cases ha : (a.title == title) with
    | true =>
      rw [@List.find?_cons_of_pos _ (fun u => u.title == title) a as ha] at h
      injection h with h2
      subst h2
      exact ⟨[], as, rfl, fun u hu => absurd hu (List.not_mem_nil u), by
        exact eq_of_beq ha⟩
    | false =>
      rw [@List.find?_cons_of_neg _ (fun u => u.title == title) a as
        (by simp [ha])] at h
      obtain ⟨pre, post, hdec, hpre, hmatch⟩ := ih h
      refine ⟨a :: pre, post, by rw [hdec, List.cons_append], ?_, hmatch⟩
      intro u hu
      cases hu with
      | head => intro hcon; rw [hcon] at ha; simp at ha
      | tail _ hmem => exact hpre u hmem

/-! Shape lemmas: each mutating operation either raises, leaving the
storage untouched, or saves a well-identified new collection. -/

theorem get_task_snd (now title : String) (fc : FileContent) :
    (get_task now title fc).2 = fc := by
  unfold get_task
  cases hl : load now fc <;> rfl

theorem add_task_cases (now title : String) (p : Int) (fc : FileContent) :
    (∃ e, add_task now title p fc = (.error e, fc)) ∨
    (∃ tasks, load now fc = .ok tasks ∧ priorityValid p = true ∧
       add_task now title p fc =
         (.ok ⟨title, false, p, now, none⟩,
          save (tasks ++ [⟨title, false, p, now, none⟩]))) := by
  by_cases h1 : title = ""
  · refine Or.inl ⟨.valueError "Task title cannot be empty", ?_⟩
    unfold add_task
    rw [if_pos h1]
  · by_cases h2 : title.data.all pyIsSpace = true
    · refine Or.inl ⟨.valueError "Task title cannot be only whitespace", ?_⟩
      unfold add_task
      rw [if_neg h1, if_pos h2]
    · by_cases h3 : 200 < title.length
      · refine Or.inl ⟨.valueError "Task title cannot exceed 200 characters", ?_⟩
        unfold add_task
        rw [if_neg h1, if_neg h2, if_pos h3]
      · cases hl : load now fc with
        | error e =>
          refine Or.inl ⟨e, ?_⟩
          unfold add_task
          rw [if_neg h1, if_neg h2, if_neg h3, hl]
        | ok tasks =>
          by_cases hp : priorityValid p = true
          · refine Or.inr ⟨tasks, rfl, hp, ?_⟩
            unfold add_task
            rw [if_neg h1, if_neg h2, if_neg h3, hl]
            dsimp only
            rw [postInit_ok _ _ _ _ _ hp]
          · refine Or.inl ⟨.valueError "Priority must be 1, 2, or 3", ?_⟩
            unfold add_task
            rw [if_neg h1, if_neg h2, if_neg h3, hl]
            dsimp only
            unfold postInit
            rw [if_neg hp]

theorem complete_task_cases (now title : String) (fc : FileContent) :
    (∃ e, complete_task now title fc = (.error e, fc)) ∨
    (∃ tasks t tasks2, load now fc = .ok tasks ∧
       completeScan now title tasks = .ok (t, tasks2) ∧
       complete_task now title fc = (.ok t, save tasks2)) := by
  cases hl : load now fc with
  | error e =>
    refine Or.inl ⟨e, ?_⟩
    unfold complete_task
    rw [hl]
  | ok tasks =>
    cases hs : completeScan now title tasks with
    | error e =>
      refine Or.inl ⟨e, ?_⟩
      unfold complete_task
      rw [hl]
      dsimp only
      rw [hs]
    | ok r =>
      obtain ⟨t, ts2⟩ := r
      refine Or.inr ⟨tasks, t, ts2, rfl, hs, ?_⟩
      unfold complete_task
      rw [hl]
      dsimp only
      rw [hs]

theorem delete_task_cases (now title : String) (fc : FileContent) :
    (∃ e, delete_task now title fc = (.error e, fc)) ∨
    (∃ tasks t tasks2, load now fc = .ok tasks ∧
       deleteScan title tasks = .ok (t, tasks2) ∧
       delete_task now title fc = (.ok t, save tasks2)) := by
  cases hl : load now fc with
  | error e =>
    refine Or.inl ⟨e, ?_⟩
    unfold delete_task
    rw [hl]
  | ok tasks =>
    cases hs : deleteScan title tasks with
    | error e =>
      refine Or.inl ⟨e, ?_⟩
      unfold delete_task
      rw [hl]
      dsimp only
      rw [hs]
    | ok r =>
      obtain ⟨t, ts2⟩ := r
      refine Or.inr ⟨tasks, t, ts2, rfl, hs, ?_⟩
      unfold delete_task
      rw [hl]
      dsimp only
      rw [hs]

/-! The task invariant and its preservation along reachable states. -/

/-- The data-model invariant of the specification: `completed_at` is
non-null exactly when `done` is set, and the priority is 1, 2 or 3. -/
def GoodTask (t : Task) : Prop :=
  (t.completed_at ≠ none ↔ t.done = true) ∧ priorityValid t.priority = true

theorem completeScan_good {now title : String} :
    ∀ {l : List Task} {t : Task} {l2 : List Task}, (∀ u ∈ l, GoodTask u) →
      completeScan now title l = .ok (t, l2) → ∀ u ∈ l2, GoodTask u := by
  intro l
  induction l with
  | nil => intro t l2 hg h; exact Except.noConfusion h
  | cons a as ih =>
    intro t l2 hg h
    simp only [completeScan] at h
    split at h
    · split at h
      · exact Except.noConfusion h
      · injection h with h2
        rw [Prod.mk.injEq] at h2
        obtain ⟨h3, h4⟩ := h2
        subst h4
        intro u hu
        cases hu with
        | head =>
          refine ⟨by simp, ?_⟩
          exact (hg a (List.mem_cons_self a as)).2
        | tail _ hmem => exact hg u (List.mem_cons_of_mem a hmem)
    · cases hs : completeScan now title as with
      | error e => rw [hs] at h; exact Except.noConfusion h
      | ok r =>
        obtain ⟨t2, ts2⟩ := r
        rw [hs] at h
        injection h with h2
        rw [Prod.mk.injEq] at h2
        obtain ⟨h3, h4⟩ := h2
        subst h4
        intro u hu
        cases hu with
        | head => exact hg a (List.mem_cons_self a as)
        | tail _ hmem =>
          exact ih (fun w hw => hg w (List.mem_cons_of_mem a hw)) hs u hmem

theorem deleteScan_mem {title : String} :
    ∀ {l : List Task} {t : Task} {l2 : List Task},
      deleteScan title l = .ok (t, l2) → ∀ u ∈ l2, u ∈ l := by
  intro l
  induction l with
  | nil => intro t l2 h; exact Except.noConfusion h
  | cons a as ih =>
    intro t l2 h
    simp only [deleteScan] at h
    split at h
    · injection h with h2
      rw [Prod.mk.injEq] at h2
      obtain ⟨h3, h4⟩ := h2
      subst h4
      intro u hu
      exact List.mem_cons_of_mem a hu
    · cases hs : deleteScan title as with
      | error e => rw [hs] at h; exact Except.noConfusion h
      | ok r =>
        obtain ⟨t2, ts2⟩ := r
        rw [hs] at h
        injection h with h2
        rw [Prod.mk.injEq] at h2
        obtain ⟨h3, h4⟩ := h2
        subst h4
        intro u hu
        cases hu with
        | head => exact List.mem_cons_self a as
        | tail _ hmem => exact List.mem_cons_of_mem a (ih hs u hmem)

/-- Every reachable storage state loads (at any time) to a fixed
collection whose tasks all satisfy the invariant. -/
theorem reachable_load {fc : FileContent} (h : Reachable fc) :
    ∃ l, (∀ now, load now fc = .ok l) ∧ ∀ t ∈ l, GoodTask t := by
  induction h with
  | init =>
    exact ⟨[], fun now => rfl, fun t ht => absurd ht (List.not_mem_nil t)⟩
  | @add now title p fc hr ih =>
    obtain ⟨l, hl, hg⟩ := ih
    rcases add_task_cases now title p fc with ⟨e, heq⟩ | ⟨tasks, hload, hp, heq⟩
    · rw [heq]
      exact ⟨l, hl, hg⟩
    · rw [heq]
      have hll := hl now
      rw [hload] at hll
      injection hll with h2
      subst h2
      refine ⟨tasks ++ [⟨title, false, p, now, none⟩], ?_, ?_⟩
      · intro n
        refine load_save n _ ?_
        intro u hu
        rcases List.mem_append.1 hu with h1 | h2
        · exact (hg u h1).2
        · have : u = ⟨title, false, p, now, none⟩ := by simpa using h2
          subst this
          exact hp
      · intro u hu
        rcases List.mem_append.1 hu with h1 | h2
        · exact hg u h1
        · have : u = ⟨title, false, p, now, none⟩ := by simpa using h2
          subst this
          exact ⟨by simp, hp⟩
  | @complete now title fc hr ih =>
    obtain ⟨l, hl, hg⟩ := ih
    rcases complete_task_cases now title fc with ⟨e, heq⟩ | ⟨tasks, t, tasks2, hload, hs, heq⟩
    · rw [heq]
      exact ⟨l, hl, hg⟩
    · rw [heq]
      have hll := hl now
      rw [hload] at hll
      injection hll with h2
      subst h2
      have hgood2 := completeScan_good hg hs
      exact ⟨tasks2, fun n => load_save n _ (fun u hu => (hgood2 u hu).2), hgood2⟩
  | @delete now title fc hr ih =>
    obtain ⟨l, hl, hg⟩ := ih
    rcases delete_task_cases now title fc with ⟨e, heq⟩ | ⟨tasks, t, tasks2, hload, hs, heq⟩
    · rw [heq]
      exact ⟨l, hl, hg⟩
    · rw [heq]
      have hll := hl now
      rw [hload] at hll
      injection hll with h2
      subst h2
      have hmem := deleteScan_mem hs
      exact ⟨tasks2, fun n => load_save n _ (fun u hu => (hg u (hmem u hu)).2),
        fun u hu => hg u (hmem u hu)⟩

/-! Claim theorems. -/

/-- The `__post_init__` membership test holds exactly for the priorities
1, 2 and 3. -/
theorem priorityValid_iff (p : Int) :
    priorityValid p = true ↔ (p = 1 ∨ p = 2 ∨ p = 3) := by
  simp [priorityValid]
  tauto

/-- Claim C8: for every collection of valid tasks (priority in 1..3),
saving it and then loading yields the original collection field for
field. -/
theorem save_load_round_trip (now : String) (tasks : List Task)
    (h : ∀ t ∈ tasks, t.priority = 1 ∨ t.priority = 2 ∨ t.priority = 3) :
    load now (save tasks) = .ok tasks := by
  refine load_save now tasks ?_
  intro t ht
  exact (priorityValid_iff t.priority).2 (h t ht)

/-- Witness for C8 at a concrete two-task collection. -/
theorem save_load_round_trip_witness :
    load "t1" (save [⟨"a", false, 1, "t0", none⟩, ⟨"b", true, 3, "t0", some "t1"⟩]) =
      .ok [⟨"a", false, 1, "t0", none⟩, ⟨"b", true, 3, "t0", some "t1"⟩] :=
  save_load_round_trip "t1"
    [⟨"a", false, 1, "t0", none⟩, ⟨"b", true, 3, "t0", some "t1"⟩] (by decide)

/-- Claim C5: storage content that fails to parse loads as the empty
collection with no error, and the read operations behave exactly as they
do on empty storage. -/
theorem malformed_loads_empty (raw now title : String) (p : Int) :
    load now (.malformed raw) = .ok [] ∧
    get_all_tasks now (.malformed raw) = (.ok [], .malformed raw) ∧
    (get_task now title (.malformed raw)).1 = (get_task now title (save [])).1 ∧
    (get_tasks_by_priority now p (.malformed raw)).1 =
      (get_tasks_by_priority now p (save [])).1 ∧
    active_tasks_count now (.malformed raw) = (.ok 0, .malformed raw) ∧
    completed_tasks_count now (.malformed raw) = (.ok 0, .malformed raw) := by
  refine ⟨rfl, rfl, rfl, ?_, rfl, rfl⟩
  unfold get_tasks_by_priority
  split <;> rfl

/-- Claim C6: whenever an operation fails, the storage contents are left
exactly as they were before the call. -/
theorem error_leaves_storage_untouched (now t1 t2 t3 t4 : String) (p : Int)
    (fc : FileContent) :
    (∀ e, (add_task now t1 p fc).1 = .error e → (add_task now t1 p fc).2 = fc) ∧
    (∀ e, (complete_task now t2 fc).1 = .error e → (complete_task now t2 fc).2 = fc) ∧
    (∀ e, (delete_task now t3 fc).1 = .error e → (delete_task now t3 fc).2 = fc) ∧
    (∀ e, (get_task now t4 fc).1 = .error e → (get_task now t4 fc).2 = fc) := by
  refine ⟨?_, ?_, ?_, ?_⟩
  · intro e he
    rcases add_task_cases now t1 p fc with ⟨e2, heq⟩ | ⟨tasks, hload, hp, heq⟩
    · rw [heq]
    · rw [heq] at he
      exact Except.noConfusion he
  · intro e he
    rcases complete_task_cases now t2 fc with ⟨e2, heq⟩ | ⟨tasks, t, ts2, hload, hs, heq⟩
    · rw [heq]
    · rw [heq] at he
      exact Except.noConfusion he
  · intro e he
    rcases delete_task_cases now t3 fc with ⟨e2, heq⟩ | ⟨tasks, t, ts2, hload, hs, heq⟩
    · rw [heq]
    · rw [heq] at he
      exact Except.noConfusion he
  · intro e he
    exact get_task_snd now t4 fc

/-- Witness for C6: each operation made to fail on a concrete state leaves
the state unchanged. -/
theorem error_leaves_storage_untouched_witness :
    (add_task "t" "" 1 (save [])).2 = save [] ∧
    (complete_task "t" "x" (save [])).2 = save [] ∧
    (delete_task "t" "x" (save [])).2 = save [] ∧
    (get_task "t" "x" (save [])).2 = save [] := by
  obtain ⟨h1, h2, h3, h4⟩ :=
    error_leaves_storage_untouched "t" "" "x" "x" "x" 1 (save [])
  exact ⟨h1 _ rfl, h2 _ rfl, h3 _ rfl, h4 _ rfl⟩

/-- Claim C9: `get_tasks_by_priority` fails with a validation error on a
priority outside 1..3, and otherwise returns exactly the tasks of
`get_all_tasks` with that priority, in order, leaving storage unchanged. -/
theorem get_tasks_by_priority_spec (now : String) (p : Int) (fc : FileContent) :
    (¬(p = 1 ∨ p = 2 ∨ p = 3) →
       get_tasks_by_priority now p fc =
         (.error (.valueError "Priority must be 1, 2, or 3"), fc)) ∧
    ((p = 1 ∨ p = 2 ∨ p = 3) →
       (get_tasks_by_priority now p fc).2 = fc ∧
       (get_tasks_by_priority now p fc).1 =
         Except.map (fun l => l.filter (fun t => t.priority == p))
           (get_all_tasks now fc).1) := by
  constructor
  · intro hp
    have hpv : priorityValid p = false := by
      cases hb : priorityValid p with
      | false => rfl
      | true => exact absurd ((priorityValid_iff p).1 hb) hp
    unfold get_tasks_by_priority
    rw [if_neg (by simp [hpv])]
  · intro hp
    have hpv : priorityValid p = true := (priorityValid_iff p).2 hp
    constructor
    · unfold get_tasks_by_priority
      rw [if_pos hpv]
      cases hl : load now fc <;> rfl
    · unfold get_tasks_by_priority get_all_tasks
      rw [if_pos hpv]
      cases hl : load now fc <;> rfl

/-- Witness for C9: an invalid priority is rejected; the filter result at
priority 2 on a concrete two-task storage. -/
theorem get_tasks_by_priority_spec_witness :
    get_tasks_by_priority "t" 7 (save []) =
      (.error (.valueError "Priority must be 1, 2, or 3"), save []) ∧
    (get_tasks_by_priority "t" 2
       (save [⟨"a", false, 2, "t0", none⟩, ⟨"b", false, 1, "t0", none⟩])).2 =
      save [⟨"a", false, 2, "t0", none⟩, ⟨"b", false, 1, "t0", none⟩] ∧
    (get_tasks_by_priority "t" 2
       (save [⟨"a", false, 2, "t0", none⟩, ⟨"b", false, 1, "t0", none⟩])).1 =
      Except.map (fun l => l.filter (fun t => t.priority == 2))
        (get_all_tasks "t"
          (save [⟨"a", false, 2, "t0", none⟩, ⟨"b", false, 1, "t0", none⟩])).1 := by
  refine ⟨(get_tasks_by_priority_spec "t" 7 (save [])).1 (by decide), ?_, ?_⟩
  · exact ((get_tasks_by_priority_spec "t" 2 _).2 (by decide)).1
  · exact ((get_tasks_by_priority_spec "t" 2 _).2 (by decide)).2

/-- Claim C7: in every state reachable from empty storage through the
public operations, every stored task has `completed_at` non-null exactly
when `done` is true, and a priority in 1..3. -/
theorem reachable_invariant {fc : FileContent} {now : String} {tasks : List Task}
    (hreach : Reachable fc) (hload : load now fc = .ok tasks) :
    ∀ t ∈ tasks, (t.completed_at ≠ none ↔ t.done = true) ∧
      (t.priority = 1 ∨ t.priority = 2 ∨ t.priority = 3) := by
  obtain ⟨l, hl, hg⟩ := reachable_load hreach
  rw [hl now] at hload
  injection hload with h2
  subst h2
  intro t ht
  exact ⟨(hg t ht).1, (priorityValid_iff t.priority).1 (hg t ht).2⟩

/-- Witness for C7 at the state reached by one `add_task` from empty
storage. -/
theorem reachable_invariant_witness :
    ((⟨"a", false, 1, "t0", none⟩ : Task).completed_at ≠ none ↔
       (⟨"a", false, 1, "t0", none⟩ : Task).done = true) ∧
    ((⟨"a", false, 1, "t0", none⟩ : Task).priority = 1 ∨
       (⟨"a", false, 1, "t0", none⟩ : Task).priority = 2 ∨
       (⟨"a", false, 1, "t0", none⟩ : Task).priority = 3) :=
  @reachable_invariant (add_task "t0" "a" 1 (save [])).2 "t1"
    [⟨"a", false, 1, "t0", none⟩]
    (Reachable.add "t0" "a" 1 Reachable.init) rfl
    ⟨"a", false, 1, "t0", none⟩ (List.mem_cons_self _ _)

/-- Claim C2: `complete_task` scans for the first task with the given
title; no match fails with not-found, a completed first match fails with
the already-completed validation error leaving storage untouched, and an
active first match is completed in place with a non-null `completed_at`,
saved and returned — after which a second `complete_task` on the same
title fails with the validation error. -/
theorem complete_task_spec (now now2 title : String) (fc : FileContent)
    (tasks : List Task) (hload : load now fc = .ok tasks) :
    (tasks.find? (fun u => u.title == title) = none →
       complete_task now title fc =
         (.error (.taskNotFound ("Task " ++ title ++ " not found")), fc)) ∧
    (∀ t, tasks.find? (fun u => u.title == title) = some t → t.done = true →
       complete_task now title fc =
         (.error (.valueError "Task is already completed"), fc)) ∧
    (∀ t, tasks.find? (fun u => u.title == title) = some t → t.done = false →
       ∃ pre post,
         tasks = pre ++ t :: post ∧ (∀ u ∈ pre, u.title ≠ title) ∧
         complete_task now title fc =
           (.ok { t with done := true, completed_at := some now },
            save (pre ++ { t with done := true, completed_at := some now } :: post)) ∧
         ({ t with done := true, completed_at := some now } : Task).completed_at ≠ none ∧
         (complete_task now2 title
            (save (pre ++ { t with done := true, completed_at := some now } :: post))).1 =
           .error (.valueError "Task is already completed")) := by
  refine ⟨?_, ?_, ?_⟩
  · intro hnone
    have hall : ∀ u ∈ tasks, u.title ≠ title := by
      intro u hu hcon
      have hne := List.find?_eq_none.1 hnone u hu
      exact hne (by simp [hcon])
    unfold complete_task
    rw [hload]
    dsimp only
    rw [completeScan_not_found hall]
  · intro t hfind hdone
    obtain ⟨pre, post, hdec, hpre, hmatch⟩ := find?_decomp hfind
    unfold complete_task
    rw [hload]
    dsimp only
    rw [hdec, completeScan_found_done hpre hmatch hdone]
  · intro t hfind hdone
    obtain ⟨pre, post, hdec, hpre, hmatch⟩ := find?_decomp hfind
    have hmem : t ∈ tasks := by
      rw [hdec]
      exact List.mem_append.2 (Or.inr (List.mem_cons_self t post))
    have hpri := load_priorities hload t hmem
    refine ⟨pre, post, hdec, hpre, ?_, by simp, ?_⟩
    · unfold complete_task
      rw [hload]
      dsimp only
      rw [hdec, completeScan_found_active hpre hmatch hdone]
    · have hload2 : load now2
          (save (pre ++ { t with done := true, completed_at := some now } :: post)) =
          .ok (pre ++ { t with done := true, completed_at := some now } :: post) := by
        refine load_save now2 _ ?_
        intro u hu
        rcases List.mem_append.1 hu with h1 | h2
        · exact load_priorities hload u
            (by rw [hdec]; exact List.mem_append.2 (Or.inl h1))
        · cases h2 with
          | head => exact hpri
          | tail _ hmemu =>
            exact load_priorities hload u
              (by rw [hdec]
                  exact List.mem_append.2 (Or.inr (List.mem_cons_of_mem t hmemu)))
      have ht2 : ({ t with done := true, completed_at := some now } : Task).title =
          title := hmatch
      have hd2 : ({ t with done := true, completed_at := some now } : Task).done =
          true := rfl
      unfold complete_task
      rw [hload2]
      dsimp only
      rw [completeScan_found_done hpre ht2 hd2]

/-- Witness for C2: a missing title is rejected on a concrete storage; an
active task in a concrete storage is completed and a repeat completion
fails. -/
theorem complete_task_spec_witness :
    complete_task "t1" "x" (save [⟨"a", false, 1, "t0", none⟩]) =
      (.error (.taskNotFound ("Task " ++ "x" ++ " not found")),
       save [⟨"a", false, 1, "t0", none⟩]) ∧
    (∃ pre post,
       [(⟨"a", false, 1, "t0", none⟩ : Task)] = pre ++ ⟨"a", false, 1, "t0", none⟩ :: post ∧
       (∀ u ∈ pre, u.title ≠ "a") ∧
       complete_task "t1" "a" (save [⟨"a", false, 1, "t0", none⟩]) =
         (.ok ⟨"a", true, 1, "t0", some "t1"⟩,
          save (pre ++ ⟨"a", true, 1, "t0", some "t1"⟩ :: post)) ∧
       (⟨"a", true, 1, "t0", some "t1"⟩ : Task).completed_at ≠ none ∧
       (complete_task "t2" "a" (save (pre ++ ⟨"a", true, 1, "t0", some "t1"⟩ :: post))).1 =
         .error (.valueError "Task is already completed")) := by
  constructor
  · exact (complete_task_spec "t1" "t2" "x" (save [⟨"a", false, 1, "t0", none⟩])
      [⟨"a", false, 1, "t0", none⟩] rfl).1 rfl
  · exact (complete_task_spec "t1" "t2" "a" (save [⟨"a", false, 1, "t0", none⟩])
      [⟨"a", false, 1, "t0", none⟩] rfl).2.2 ⟨"a", false, 1, "t0", none⟩ rfl rfl

/-- Claim C3: `delete_task` removes exactly the first task whose title
matches, saves the remainder in order, and returns the removed task as it
was; no match fails with not-found, and after deleting the only task with
the title, `get_task` on that title fails with not-found. -/
theorem delete_task_spec (now now2 title : String) (fc : FileContent)
    (tasks : List Task) (hload : load now fc = .ok tasks) :
    (tasks.find? (fun u => u.title == title) = none →
       delete_task now title fc =
         (.error (.taskNotFound ("Task " ++ title ++ " not found")), fc)) ∧
    (∀ t, tasks.find? (fun u => u.title == title) = some t →
       ∃ pre post,
         tasks = pre ++ t :: post ∧ (∀ u ∈ pre, u.title ≠ title) ∧ t.title = title ∧
         delete_task now title fc = (.ok t, save (pre ++ post)) ∧
         ((∀ u ∈ pre ++ post, u.title ≠ title) →
            (get_task now2 title (save (pre ++ post))).1 =
              .error (.taskNotFound ("Task " ++ title ++ " not found")))) := by
  constructor
  · intro hnone
    have hall : ∀ u ∈ tasks, u.title ≠ title := by
      intro u hu hcon
      have hne := List.find?_eq_none.1 hnone u hu
      exact hne (by simp [hcon])
    unfold delete_task
    rw [hload]
    dsimp only
    rw [deleteScan_not_found hall]
  · intro t hfind
    obtain ⟨pre, post, hdec, hpre, hmatch⟩ := find?_decomp hfind
    refine ⟨pre, post, hdec, hpre, hmatch, ?_, ?_⟩
    · unfold delete_task
      rw [hload]
      dsimp only
      rw [hdec, deleteScan_found hpre hmatch]
    · intro hnone2
      have hload2 : load now2 (save (pre ++ post)) = .ok (pre ++ post) := by
        refine load_save now2 _ ?_
        intro u hu
        rcases List.mem_append.1 hu with h1 | h2
        · exact load_priorities hload u
            (by rw [hdec]; exact List.mem_append.2 (Or.inl h1))
        · exact load_priorities hload u
            (by rw [hdec]
                exact List.mem_append.2 (Or.inr (List.mem_cons_of_mem t h2)))
      unfold get_task
      rw [hload2]
      dsimp only
      rw [getScan_not_found hnone2]

/-- Witness for C3: deleting a missing title fails on a concrete storage;
deleting the only task with a title removes it and a later lookup fails. -/
theorem delete_task_spec_witness :
    delete_task "t1" "x" (save [⟨"a", false, 1, "t0", none⟩]) =
      (.error (.taskNotFound ("Task " ++ "x" ++ " not found")),
       save [⟨"a", false, 1, "t0", none⟩]) ∧
    (∃ pre post,
       [(⟨"b", true, 2, "t0", some "t1"⟩ : Task)] =
         pre ++ ⟨"b", true, 2, "t0", some "t1"⟩ :: post ∧
       (∀ u ∈ pre, u.title ≠ "b") ∧
       (⟨"b", true, 2, "t0", some "t1"⟩ : Task).title = "b" ∧
       delete_task "t1" "b" (save [⟨"b", true, 2, "t0", some "t1"⟩]) =
         (.ok ⟨"b", true, 2, "t0", some "t1"⟩, save (pre ++ post)) ∧
       ((∀ u ∈ pre ++ post, u.title ≠ "b") →
          (get_task "t2" "b" (save (pre ++ post))).1 =
            .error (.taskNotFound ("Task " ++ "b" ++ " not found")))) := by
  constructor
  · exact (delete_task_spec "t1" "t2" "x" (save [⟨"a", false, 1, "t0", none⟩])
      [⟨"a", false, 1, "t0", none⟩] rfl).1 rfl
  · exact (delete_task_spec "t1" "t2" "b" (save [⟨"b", true, 2, "t0", some "t1"⟩])
      [⟨"b", true, 2, "t0", some "t1"⟩] rfl).2 ⟨"b", true, 2, "t0", some "t1"⟩ rfl

/-- Claim C1 (amended): for a valid title, a priority in 1..3, and a prior
storage that loads successfully and holds no task with that title,
`add_task` then `get_task` returns the new task with the given title and
priority, `done = false` and `completed_at = none`. -/
theorem add_then_get_fresh (now now2 title : String) (p : Int) (fc : FileContent)
    (tasks : List Task) (hload : load now fc = .ok tasks)
    (ht1 : title ≠ "") (ht2 : title.data.all pyIsSpace = false)
    (ht3 : title.length ≤ 200) (hp : p = 1 ∨ p = 2 ∨ p = 3)
    (hfresh : ∀ u ∈ tasks, u.title ≠ title) :
    add_task now title p fc =
      (.ok ⟨title, false, p, now, none⟩,
       save (tasks ++ [⟨title, false, p, now, none⟩])) ∧
    (get_task now2 title (add_task now title p fc).2).1 =
      .ok ⟨title, false, p, now, none⟩ := by
  have hpv := (priorityValid_iff p).2 hp
  have hadd : add_task now title p fc =
      (.ok ⟨title, false, p, now, none⟩,
       save (tasks ++ [⟨title, false, p, now, none⟩])) := by
    unfold add_task
    rw [if_neg ht1, if_neg (by simp [ht2]), if_neg (by omega), hload]
    dsimp only
    rw [postInit_ok _ _ _ _ _ hpv]
  refine ⟨hadd, ?_⟩
  rw [hadd]
  dsimp only
  have hload2 : load now2 (save (tasks ++ [⟨title, false, p, now, none⟩])) =
      .ok (tasks ++ [⟨title, false, p, now, none⟩]) := by
    refine load_save now2 _ ?_
    intro u hu
    rcases List.mem_append.1 hu with h1 | h2
    · exact load_priorities hload u h1
    · have : u = ⟨title, false, p, now, none⟩ := by simpa using h2
      subst this
      exact hpv
  unfold get_task
  rw [hload2]
  dsimp only
  rw [getScan_found hfresh
    (show (⟨title, false, p, now, none⟩ : Task).title = title from rfl)]

/-- Witness for C1 at a concrete fresh title over a one-task storage. -/
theorem add_then_get_fresh_witness :
    add_task "t1" "b" 2 (save [⟨"a", false, 1, "t0", none⟩]) =
      (.ok ⟨"b", false, 2, "t1", none⟩,
       save ([⟨"a", false, 1, "t0", none⟩] ++ [⟨"b", false, 2, "t1", none⟩])) ∧
    (get_task "t2" "b" (add_task "t1" "b" 2 (save [⟨"a", false, 1, "t0", none⟩])).2).1 =
      .ok ⟨"b", false, 2, "t1", none⟩ :=
  add_then_get_fresh "t1" "t2" "b" 2 (save [⟨"a", false, 1, "t0", none⟩])
    [⟨"a", false, 1, "t0", none⟩] rfl (by decide) (by decide) (by decide)
    (by decide) (by decide)

/-- Counterexample to claim C1 as stated: the conclusion does not hold
regardless of the prior contents of storage.  With an already-completed
task of the same title stored, `add_task` succeeds but `get_task` returns
the first match — the old task, whose `done` is true and whose priority
differs from the argument. -/
theorem add_then_get_counterexample :
    (add_task "t1" "x" 2 (save [⟨"x", true, 1, "t0", some "t0"⟩])).1 =
      .ok ⟨"x", false, 2, "t1", none⟩ ∧
    (get_task "t2" "x"
       (add_task "t1" "x" 2 (save [⟨"x", true, 1, "t0", some "t0"⟩])).2).1 =
      .ok ⟨"x", true, 1, "t0", some "t0"⟩ ∧
    ¬((⟨"x", true, 1, "t0", some "t0"⟩ : Task).done = false) ∧
    ¬((⟨"x", true, 1, "t0", some "t0"⟩ : Task).priority = 2) := by
  exact ⟨rfl, rfl, by decide, by decide⟩

/-- Claim C4 (amended): provided the prior storage loads successfully,
`add_task` fails with a validation error exactly when the title is empty,
whitespace-only or longer than 200 characters, or the priority is outside
1..3; otherwise it succeeds, so a 200-character title is accepted and a
201-character one is rejected. -/
theorem add_task_validation (now title : String) (p : Int) (fc : FileContent)
    (tasks : List Task) (hload : load now fc = .ok tasks) :
    ((∃ msg, (add_task now title p fc).1 = .error (.valueError msg)) ↔
       (title = "" ∨ title.data.all pyIsSpace = true ∨
        200 < title.length ∨ ¬(p = 1 ∨ p = 2 ∨ p = 3))) ∧
    (¬(title = "" ∨ title.data.all pyIsSpace = true ∨
       200 < title.length ∨ ¬(p = 1 ∨ p = 2 ∨ p = 3)) →
       (add_task now title p fc).1 = .ok ⟨title, false, p, now, none⟩) := by
  by_cases h1 : title = ""
  · have heq : (add_task now title p fc).1 =
        .error (.valueError "Task title cannot be empty") := by
      unfold add_task
      rw [if_pos h1]
    constructor
    · exact ⟨fun _ => Or.inl h1, fun _ => ⟨_, heq⟩⟩
    · intro hcon
      exact absurd (Or.inl h1) hcon
  · by_cases h2 : title.data.all pyIsSpace = true
    · have heq : (add_task now title p fc).1 =
          .error (.valueError "Task title cannot be only whitespace") := by
        unfold add_task
        rw [if_neg h1, if_pos h2]
      constructor
      · exact ⟨fun _ => Or.inr (Or.inl h2), fun _ => ⟨_, heq⟩⟩
      · intro hcon
        exact absurd (Or.inr (Or.inl h2)) hcon
    · by_cases h3 : 200 < title.length
      · have heq : (add_task now title p fc).1 =
            .error (.valueError "Task title cannot exceed 200 characters") := by
          unfold add_task
          rw [if_neg h1, if_neg h2, if_pos h3]
        constructor
        · exact ⟨fun _ => Or.inr (Or.inr (Or.inl h3)), fun _ => ⟨_, heq⟩⟩
        · intro hcon
          exact absurd (Or.inr (Or.inr (Or.inl h3))) hcon
      · by_cases hp : p = 1 ∨ p = 2 ∨ p = 3
        · have hpv := (priorityValid_iff p).2 hp
          have heq : (add_task now title p fc).1 = .ok ⟨title, false, p, now, none⟩ := by
            unfold add_task
            rw [if_neg h1, if_neg h2, if_neg h3, hload]
            dsimp only
            rw [postInit_ok _ _ _ _ _ hpv]
          constructor
          · constructor
            · rintro ⟨msg, hmsg⟩
              rw [heq] at hmsg
              exact Except.noConfusion hmsg
            · intro hcon
              rcases hcon with h | h | h | h
              exacts [absurd h h1, absurd h h2, absurd h h3, absurd hp h]
          · intro _
            exact heq
        · have hpv : priorityValid p = false := by
            cases hb : priorityValid p with
            | false => rfl
            | true => exact absurd ((priorityValid_iff p).1 hb) hp
          have heq : (add_task now title p fc).1 =
              .error (.valueError "Priority must be 1, 2, or 3") := by
            unfold add_task
            rw [if_neg h1, if_neg h2, if_neg h3, hload]
            dsimp only
            unfold postInit
            rw [if_neg (by simp [hpv])]
          constructor
          · exact ⟨fun _ => Or.inr (Or.inr (Or.inr hp)), fun _ => ⟨_, heq⟩⟩
          · intro hcon
            exact absurd (Or.inr (Or.inr (Or.inr hp))) hcon

/-- Witness for C4 at the boundary: a title of exactly 200 characters is
accepted, a title of 201 characters is rejected with a validation error,
and so is a title consisting of a lone vertical tab, a whitespace
character in the `str.strip()` sense. -/
theorem add_task_validation_witness :
    (add_task "t" (String.mk (List.replicate 200 'a')) 1 (save [])).1 =
      .ok ⟨String.mk (List.replicate 200 'a'), false, 1, "t", none⟩ ∧
    (∃ msg, (add_task "t" (String.mk (List.replicate 201 'a')) 1 (save [])).1 =
       .error (.valueError msg)) ∧
    (∃ msg, (add_task "t" "\x0b" 1 (save [])).1 = .error (.valueError msg)) := by
  refine ⟨?_, ?_, ?_⟩
  · exact (add_task_validation "t" (String.mk (List.replicate 200 'a')) 1
      (save []) [] rfl).2 (by decide)
  · exact (add_task_validation "t" (String.mk (List.replicate 201 'a')) 1
      (save []) [] rfl).1.2 (by decide)
  · exact (add_task_validation "t" "\x0b" 1 (save []) [] rfl).1.2 (by decide)

/-- Counterexample to claim C4 as stated: with well-formed storage holding
a record whose priority is 5, `add_task` with perfectly valid arguments
fails with a validation error, so the "only if" direction of the claimed
equivalence does not hold over all storage states. -/
theorem add_task_validation_counterexample :
    (add_task "t" "ok" 1
       (.json (.arr [.obj [("title", .str "a"), ("priority", .int 5)]]))).1 =
      .error (.valueError "Priority must be 1, 2, or 3") ∧
    ¬("ok" = "" ∨ "ok".data.all pyIsSpace = true ∨
      200 < "ok".length ∨ ¬((1 : Int) = 1 ∨ (1 : Int) = 2 ∨ (1 : Int) = 3)) := by
  exact ⟨rfl, by decide⟩

/-- Array entries on which `Task(**item)` raises in the source: a
non-mapping entry, an unexpected keyword, a missing `title` keyword, or an
integer `priority` outside 1..3. -/
def itemConstructionFails (x : Json) : Prop :=
  (∀ kvs, x ≠ .obj kvs) ∨
  (∃ kvs kv, x = .obj kvs ∧ kv ∈ kvs ∧ fieldNames.contains kv.1 = false) ∨
  (∃ kvs, x = .obj kvs ∧ lookupLast kvs "title" = none) ∨
  (∃ kvs n, x = .obj kvs ∧ lookupLast kvs "priority" = some (.int n) ∧
     ¬(n = 1 ∨ n = 2 ∨ n = 3))

theorem itemConstructionFails_error (now : String) (x : Json)
    (h : itemConstructionFails x) : ∃ e, decodeItem now x = .error e := by
  rcases h with h | ⟨kvs, kv, hx, hmem, hbad⟩ | ⟨kvs, hx, hnone⟩ | ⟨kvs, n, hx, hpri, hn⟩
  · cases x with
    | obj kvs => exact absurd rfl (h kvs)
    | null => exact ⟨_, rfl⟩
    | bool b => exact ⟨_, rfl⟩
    | int n => exact ⟨_, rfl⟩
    | str s => exact ⟨_, rfl⟩
    | arr xs => exact ⟨_, rfl⟩
  · subst hx
    have hall : kvs.all (fun kv => fieldNames.contains kv.1) = false := by
      cases hb : kvs.all (fun kv => fieldNames.contains kv.1) with
      | false => rfl
      | true =>
        have h2 : fieldNames.contains kv.1 = true := List.all_eq_true.1 hb kv hmem
        rw [hbad] at h2
        exact Bool.noConfusion h2
    refine ⟨.typeError "unexpected keyword argument", ?_⟩
    simp only [decodeItem]
    rw [if_neg (by rw [hall]; exact Bool.false_ne_true)]
  · subst hx
    by_cases hall : kvs.all (fun kv => fieldNames.contains kv.1) = true
    · have hdt : decodeTitle kvs =
          .error (.typeError "missing required argument title") := by
        unfold decodeTitle
        rw [hnone]
      refine ⟨.typeError "missing required argument title", ?_⟩
      simp only [decodeItem]
      rw [if_pos hall, hdt]
    · exact ⟨.typeError "unexpected keyword argument",
        by simp only [decodeItem]; rw [if_neg hall]⟩
  · subst hx
    by_cases hall : kvs.all (fun kv => fieldNames.contains kv.1) = true
    · have hdp : decodePriority kvs = .ok n := by
        unfold decodePriority
        rw [hpri]
      have hnv : priorityValid n = false := by
        cases hb : priorityValid n with
        | false => rfl
        | true => exact absurd ((priorityValid_iff n).1 hb) hn
      cases hdt : decodeTitle kvs with
      | error e => exact ⟨e, by simp only [decodeItem]; rw [if_pos hall, hdt]⟩
      | ok s =>
        cases hdd : decodeDone kvs with
        | error e =>
          exact ⟨e, by simp only [decodeItem]; rw [if_pos hall, hdt, hdd]⟩
        | ok b =>
          cases hdc : decodeCreated now kvs with
          | error e =>
            exact ⟨e, by simp only [decodeItem]; rw [if_pos hall, hdt, hdd, hdp, hdc]⟩
          | ok c =>
            cases hdco : decodeCompleted kvs with
            | error e =>
              exact ⟨e,
                by simp only [decodeItem]; rw [if_pos hall, hdt, hdd, hdp, hdc, hdco]⟩
            | ok co =>
              refine ⟨.valueError "Priority must be 1, 2, or 3", ?_⟩
              simp only [decodeItem]
              rw [if_pos hall, hdt, hdd, hdp, hdc, hdco]
              dsimp only
              unfold postInit
              rw [if_neg (by rw [hnv]; exact Bool.false_ne_true)]
    · exact ⟨.typeError "unexpected keyword argument",
        by simp only [decodeItem]; rw [if_neg hall]⟩

theorem mapM_error_of_mem {now : String} {xs : List Json} {x : Json}
    (hx : x ∈ xs) (hbad : ∃ e0, decodeItem now x = .error e0) :
    ∃ e, xs.mapM (decodeItem now) = .error e := by
  induction xs with
  | nil => exact absurd hx (List.not_mem_nil x)
  | cons a as ih =>
    cases hfa : decodeItem now a with
    | error e =>
      refine ⟨e, ?_⟩
      rw [List.mapM_cons, hfa, error_bind]
    | ok b =>
      cases hx with
      | head =>
        obtain ⟨e0, he0⟩ := hbad
        rw [hfa] at he0
        exact Except.noConfusion he0
      | tail _ hmem =>
        obtain ⟨e, he⟩ := ih hmem
        refine ⟨e, ?_⟩
        rw [List.mapM_cons, hfa, ok_bind, he, error_bind]

/-- Claim C10 (amended): a well-formed JSON array with an entry on which
task construction raises makes `_load` fail, and that error propagates out
of every public operation (out of `add_task` once its title checks pass,
and out of `get_tasks_by_priority` once the priority is valid) — the
silent-empty policy applies to JSON syntax errors only. -/
theorem load_construction_error_propagates (now title : String) (p : Int)
    (xs : List Json) (x : Json) (hx : x ∈ xs) (hbad : itemConstructionFails x)
    (ht1 : title ≠ "") (ht2 : title.data.all pyIsSpace = false)
    (ht3 : title.length ≤ 200) :
    ∃ e, load now (.json (.arr xs)) = .error e ∧
      (get_all_tasks now (.json (.arr xs))).1 = .error e ∧
      (get_task now title (.json (.arr xs))).1 = .error e ∧
      (complete_task now title (.json (.arr xs))).1 = .error e ∧
      (delete_task now title (.json (.arr xs))).1 = .error e ∧
      (add_task now title p (.json (.arr xs))).1 = .error e ∧
      (active_tasks_count now (.json (.arr xs))).1 = .error e ∧
      (completed_tasks_count now (.json (.arr xs))).1 = .error e ∧
      ((p = 1 ∨ p = 2 ∨ p = 3) →
         (get_tasks_by_priority now p (.json (.arr xs))).1 = .error e) ∧
      (get_high_priority_tasks now (.json (.arr xs))).1 = .error e := by
  obtain ⟨e, he⟩ := mapM_error_of_mem hx (itemConstructionFails_error now x hbad)
  have hload : load now (.json (.arr xs)) = .error e := he
  refine ⟨e, hload, hload, ?_, ?_, ?_, ?_, ?_, ?_, ?_, ?_⟩
  · unfold get_task
    rw [hload]
  · unfold complete_task
    rw [hload]
  · unfold delete_task
    rw [hload]
  · unfold add_task
    rw [if_neg ht1, if_neg (by simp [ht2]), if_neg (by omega), hload]
  · unfold active_tasks_count
    rw [hload]
  · unfold completed_tasks_count
    rw [hload]
  · intro hp
    unfold get_tasks_by_priority
    rw [if_pos ((priorityValid_iff p).2 hp), hload]
  · unfold get_high_priority_tasks get_tasks_by_priority
    rw [if_pos (by decide), hload]

/-- Witness for C10 on a one-entry array whose record carries priority 5. -/
theorem load_construction_error_witness :
    ∃ e, load "t" (.json (.arr [.obj [("title", .str "a"), ("priority", .int 5)]])) =
        .error e ∧
      (get_all_tasks "t"
        (.json (.arr [.obj [("title", .str "a"), ("priority", .int 5)]]))).1 = .error e ∧
      (get_task "t" "x"
        (.json (.arr [.obj [("title", .str "a"), ("priority", .int 5)]]))).1 = .error e ∧
      (complete_task "t" "x"
        (.json (.arr [.obj [("title", .str "a"), ("priority", .int 5)]]))).1 = .error e ∧
      (delete_task "t" "x"
        (.json (.arr [.obj [("title", .str "a"), ("priority", .int 5)]]))).1 = .error e ∧
      (add_task "t" "x" 1
        (.json (.arr [.obj [("title", .str "a"), ("priority", .int 5)]]))).1 = .error e ∧
      (active_tasks_count "t"
        (.json (.arr [.obj [("title", .str "a"), ("priority", .int 5)]]))).1 = .error e ∧
      (completed_tasks_count "t"
        (.json (.arr [.obj [("title", .str "a"), ("priority", .int 5)]]))).1 = .error e ∧
      (((1 : Int) = 1 ∨ (1 : Int) = 2 ∨ (1 : Int) = 3) →
         (get_tasks_by_priority "t" 1
           (.json (.arr [.obj [("title", .str "a"), ("priority", .int 5)]]))).1 =
           .error e) ∧
      (get_high_priority_tasks "t"
        (.json (.arr [.obj [("title", .str "a"), ("priority", .int 5)]]))).1 = .error e :=
  load_construction_error_propagates "t" "x" 1
    [.obj [("title", .str "a"), ("priority", .int 5)]]
    (.obj [("title", .str "a"), ("priority", .int 5)])
    (List.mem_cons_self _ _)
    (Or.inr (Or.inr (Or.inr ⟨[("title", .str "a"), ("priority", .int 5)], 5, rfl, rfl,
      by decide⟩)))
    (by decide) (by decide) (by decide)

/-- Counterexample to claim C10 as stated: the JSON text consisting of an
empty string literal is well-formed JSON that is not a list of task
records, yet `_load` silently returns the empty collection, because the
comprehension iterates the empty string and produces no task. -/
theorem load_construction_error_counterexample :
    load "t" (.json (.str "")) = .ok [] ∧
    get_all_tasks "t" (.json (.str "")) = (.ok [], .json (.str "")) :=
  ⟨rfl, rfl⟩

end TodoApp
